import Mathlib

/-
A shallow embedding of the menu-item image-processing pipeline of the
repository (menu/utils/image_processing.py, menu/fields.py, menu/models.py),
together with theorems checking the specification's claims about it.

Images are modelled at the level the pipeline observes them: pixel
dimensions, color mode, declared format and EXIF orientation metadata.
The backing store (Django's default_storage over a flat media directory)
is modelled as the list of stored file paths.  File contents are not
modelled; the claims under check are about dimensions, quality settings,
paths, and descriptor sets, none of which depend on pixel values.
-/

set_option maxRecDepth 8000

namespace ImagePipeline

/-! ## Path utilities (`os.path.splitext`) -/

/-- Scanner behind `os.path.splitext`: walks the characters of a path,
tracking whether a non-dot character has been seen in the current path
component (`seen`) and the current candidate extension (`cur`, the suffix
starting at the last dot that was preceded by some non-dot character).
A `/` starts a new component, matching `splitext`'s basename handling. -/
def splitextAux : List Char → Bool → Option (List Char) → Option (List Char)
  | [], _, cur => cur
  | c :: rest, seen, cur =>
    if c = '/' then splitextAux rest false none
    else if c = '.' then splitextAux rest seen (if seen then some ['.'] else none)
    else splitextAux rest true (cur.map (fun e => e ++ [c]))

/-- The extension part of `os.path.splitext(s)`, dot included (`""` if none). -/
def splitextExt (s : String) : String :=
  String.mk ((splitextAux s.data false none).getD [])

/-- The root part of `os.path.splitext(s)`: the path minus its extension. -/
def splitextRoot (s : String) : String :=
  String.mk (s.data.take (s.data.length - (splitextExt s).data.length))

/-- ASCII lowercasing of one character (`str.lower()` restricted to the
ASCII range, which is all the extension check needs). -/
def asciiLower (c : Char) : Char :=
  if 'A' ≤ c ∧ c ≤ 'Z' then Char.ofNat (c.toNat + 32) else c

/-- `name.lower()` (ASCII). -/
def strLower (s : String) : String :=
  String.mk (s.data.map asciiLower)

/-! ## Module constants of `menu/utils/image_processing.py` -/

/-- `MAX_FILE_SIZE = 5 * 1024 * 1024  # 5MB` -/
def MAX_FILE_SIZE : Nat := 5 * 1024 * 1024

/-- `ALLOWED_FORMATS = ['JPEG', 'PNG', 'WEBP']` -/
def ALLOWED_FORMATS : List String := ["JPEG", "PNG", "WEBP"]

/-- `allowed_extensions = ['.jpg', '.jpeg', '.png', '.webp']` (in `validate_image`). -/
def allowed_extensions : List String := [".jpg", ".jpeg", ".png", ".webp"]

/-- `PLACEHOLDER_COLORS` -/
def PLACEHOLDER_COLORS : List String :=
  ["#E3F2FD", "#F3E5F5", "#E8F5E8", "#FFF3E0", "#FCE4EC", "#F1F8E9"]

/-- `MENU_IMAGE_SIZES` (keys in dict order: thumbnail, card, detail).
Used by `cleanup_old_images` and `get_responsive_image_urls`. -/
def MENU_IMAGE_SIZES : List (String × Nat × Nat) :=
  [("thumbnail", 150, 150), ("card", 400, 300), ("detail", 800, 600)]

/-- `enhanced_sizes` inside `create_multiple_sizes` (dict order:
thumbnail, card, detail, hero). -/
def enhanced_sizes : List (String × Nat × Nat) :=
  [("thumbnail", 150, 150), ("card", 400, 300), ("detail", 800, 600), ("hero", 1200, 900)]

/-! ## Decoded images (PIL) -/

/-- A decoded PIL image, at the granularity the pipeline observes:
pixel dimensions, color mode, container format, and the EXIF orientation
entry.  `orientation` is the value of the `Orientation` (274) tag as
returned by `_getexif()` (`none` when there is no EXIF data or the tag is
absent).  `hasGetexif` models `hasattr(img, '_getexif')`: true for images
freshly opened from a JPEG-like file, false for derived images (PIL's
`rotate`/`transpose` build their result via `Image._new`, which returns a
plain `Image` that does not define `_getexif`). -/
structure PilImg where
  width : Nat
  height : Nat
  mode : String
  format : String
  orientation : Option Nat
  hasGetexif : Bool
deriving DecidableEq

/-- `img.rotate(angle, expand=True)` for `angle` in {90, 180, 270}: a quarter
turn swaps the pixel dimensions, a half turn keeps them.  The result is a
derived image: it no longer exposes `_getexif`. -/
def rotateExpand (img : PilImg) (angle : Nat) : PilImg :=
  { img with
    width := if angle = 180 then img.width else img.height,
    height := if angle = 180 then img.height else img.width,
    hasGetexif := false }

/-- The EXIF auto-rotation block shared by `create_multiple_sizes` and
`MenuImageField._smart_optimize_image`: when the image exposes `_getexif`
and its EXIF holds an Orientation entry of 3, 6 or 8, rotate by 180, 270
or 90 degrees (with expand); any other situation leaves the image as is. -/
def exifAutoRotate (img : PilImg) : PilImg :=
  if img.hasGetexif then
    if img.orientation = some 3 then rotateExpand img 180
    else if img.orientation = some 6 then rotateExpand img 270
    else if img.orientation = some 8 then rotateExpand img 90
    else img
  else img

/-! ## `Image.thumbnail` (Pillow)

`img.thumbnail(size)` shrinks in place so both dimensions fit in `size`,
preserving aspect ratio and never upscaling.  Pillow computes the missing
dimension as `round_aspect(...)`: the floor or the ceiling of the exact
rational value, whichever makes the aspect ratio closest (ties go to the
floor, and a zero candidate is clamped to 1).  Pillow compares the float
key `abs(aspect - n / y)`; here the comparison is done with exact integer
arithmetic over the same rationals. -/

/-- New width for target height `ty`: `round_aspect(ty * w / h)` with key
`abs(w/h - n/ty)`.  For the floor `q` and ceiling of `ty*w/h` the key
comparison reduces to comparing the remainder `r` with `h - r`. -/
def roundAspectX (w h ty : Nat) : Nat :=
  let q := ty * w / h
  let r := ty * w % h
  max (if 2 * r ≤ h then q else q + 1) 1

/-- New height for target width `tx`: `round_aspect(tx * h / w)` with key
`0 if n == 0 else abs(w/h - tx/n)`.  With floor `q` and ceiling `c`, the
key comparison `key q ≤ key c` reduces (clearing the positive denominators)
to `tx*h*(q+c) ≤ 2*w*q*c`; a zero floor has key 0 and wins. -/
def roundAspectY (w h tx : Nat) : Nat :=
  let q := tx * h / w
  let c := if tx * h % w = 0 then q else q + 1
  max (if q = 0 then 0 else if tx * h * (q + c) ≤ 2 * w * q * c then q else c) 1

/-- `Image.thumbnail((tx, ty))` on a `w × h` image, at the level of the
resulting pixel dimensions.  No-op when the image already fits;
otherwise the branch `tx/ty ≥ w/h` (exactly: `w*ty ≤ tx*h`) recomputes
the width at full target height, and the other branch recomputes the
height at full target width. -/
def pilThumbnail (w h tx ty : Nat) : Nat × Nat :=
  if w ≤ tx ∧ h ≤ ty then (w, h)
  else if w * ty ≤ tx * h then (roundAspectX w h ty, ty)
  else (tx, roundAspectY w h tx)

/-! ## `validate_image` -/

/-- The observable surface of an uploaded file object as `validate_image`
reads it: `size`/`name` are `none` when the object lacks the attribute
(`hasattr` checks); `decoded` is the result of `Image.open` + `verify`
(`none` when opening or verifying raises, i.e. a corrupt stream);
`readRaises` models any other exception escaping from attribute access
or seeking, which the outer `try` of `validate_image` catches. -/
structure ImageFile where
  size : Option Nat
  name : Option String
  decoded : Option PilImg
  readRaises : Bool
deriving DecidableEq

/-- `image_file.size > MAX_FILE_SIZE` guarded by `hasattr(image_file, 'size')`. -/
def sizeExceeds (f : ImageFile) : Bool :=
  match f.size with
  | some s => decide (MAX_FILE_SIZE < s)
  | none => false

/-- Extension rejection: `os.path.splitext(image_file.name.lower())[1]` not in
`allowed_extensions`, guarded by `hasattr(image_file, 'name')`. -/
def extBad (f : ImageFile) : Bool :=
  match f.name with
  | some n => decide (splitextExt (strLower n) ∉ allowed_extensions)
  | none => false

/-- `validate_image(image_file)`: size ceiling, extension allow-list,
decode/verify, format allow-list, dimension ceiling, in this order; every
outcome is a `(is_valid, error_message)` pair and exceptions never escape
(the outer `except` yields the generic message). -/
def validate_image (f : ImageFile) : Bool × Option String :=
  if f.readRaises then (false, some "Error validating image file.")
  else if sizeExceeds f then
    (false, some "Image file too large. Maximum size is 5MB.")
  else if extBad f then
    (false, some "Unsupported file extension. Allowed: .jpg, .jpeg, .png, .webp")
  else
    match f.decoded with
    | none => (false, some "Invalid or corrupted image file.")
    | some img =>
      if img.format ∉ ALLOWED_FORMATS then
        (false, some "Unsupported image format. Allowed formats: JPEG, PNG, WEBP")
      else if 4096 < img.width ∨ 4096 < img.height then
        (false, some "Image dimensions too large. Maximum: 4096x4096 pixels.")
      else (true, none)

/-! ## The backing store (Django `default_storage`)

The store is the list of file paths currently present in the flat media
directory.  `Storage.save` never overwrites: when the requested name is
taken, Django's `get_available_name` derives an alternative name by
inserting a suffix before the extension and retries until a free name is
found (Django uses random 7-character suffixes; the model uses a counter,
which is the same behaviour up to the choice of fresh name).  The model
keeps totality with a fallback name that is longer than everything in the
store, hence provably fresh; it is unreachable because the counter search
already tries more candidates than the store has entries. -/

abbrev Store := List String

/-- Django's alternative name for a collision: a suffix inserted between
the file root and its extension. -/
def altName (name : String) (k : Nat) : String :=
  splitextRoot name ++ "_" ++ Nat.repr k ++ splitextExt name

/-- Length of the longest path in the store. -/
def storeMaxLen (store : Store) : Nat :=
  store.foldr (fun s m => max s.data.length m) 0

/-- A name strictly longer than every path in the store (hence not in it). -/
def fallbackName (store : Store) : String :=
  String.mk (List.replicate (storeMaxLen store + 1) 'x')

/-- `Storage.get_available_name`: the requested name if free, otherwise the
first free suffixed alternative. -/
def getAvailableName (store : Store) (name : String) : String :=
  if name ∈ store then
    match (List.range (store.length + 1)).find?
        (fun k => decide (altName name (k + 1) ∉ store)) with
    | some k => altName name (k + 1)
    | none => fallbackName store
  else name

/-- `default_storage.save(name, content)`: store under an available name,
return the name actually used together with the new store state. -/
def storageSave (store : Store) (name : String) : String × Store :=
  let n := getAvailableName store name
  (n, n :: store)

/-- `default_storage.delete(name)`: removing a missing file is a no-op. -/
def storageDelete (store : Store) (p : String) : Store :=
  store.erase p

/-- `default_storage.url(name)` for the flat media directory. -/
def storageUrl (p : String) : String := "/media/" ++ p

/-! ## `create_multiple_sizes` -/

/-- One stored variant, as recorded in the `results` dict of
`create_multiple_sizes`: `path`/`format`/`quality` as in the code; the
`size` entry of the dict is the spec bound (`boundW`, `boundH`) — the code
stores `dimensions`, not the resized size.  `actualW`/`actualH` model the
pixel dimensions of the encoded image (`img_copy` after `thumbnail`),
which the dict does not record but the claims speak about. -/
structure Variant where
  path : String
  format : String
  boundW : Nat
  boundH : Nat
  quality : Nat
  actualW : Nat
  actualH : Nat
deriving DecidableEq

/-- The per-size quality pair `(webp_quality, jpeg_quality)` chosen inside
the loop of `create_multiple_sizes`: thumbnails 75/80, hero 90/85,
everything else 85/85. -/
def variantQualities (sizeName : String) : Nat × Nat :=
  if sizeName = "thumbnail" then (75, 80)
  else if sizeName = "hero" then (90, 85)
  else (85, 85)

/-- One (size, format) iteration of the nested loops of
`create_multiple_sizes`. -/
structure VariantJob where
  sizeName : String
  boundW : Nat
  boundH : Nat
  ext : String
  formatName : String
  quality : Nat
deriving DecidableEq

/-- The eight (size, format) jobs of `create_multiple_sizes`, in loop
order: for each entry of `enhanced_sizes`, WebP then JPEG. -/
def variantJobs : List VariantJob :=
  enhanced_sizes.flatMap (fun s =>
    let q := variantQualities s.1
    [⟨s.1, s.2.1, s.2.2, "webp", "WebP", q.1⟩,
     ⟨s.1, s.2.1, s.2.2, "jpg", "JPEG", q.2⟩])

/-- The filename `f"{base_name}_{size_name}.{ext}"` for one job. -/
def jobFileName (base : String) (j : VariantJob) : String :=
  base ++ "_" ++ j.sizeName ++ "." ++ j.ext

/-- The `results` entry one job produces (key `f"{size_name}_{ext}"`),
given the path the storage assigned and the normalized source size. -/
def jobEntry (nw nh : Nat) (j : VariantJob) (path : String) : String × Variant :=
  (j.sizeName ++ "_" ++ j.ext,
   ⟨path, j.formatName, j.boundW, j.boundH, j.quality,
    (pilThumbnail nw nh j.boundW j.boundH).1, (pilThumbnail nw nh j.boundW j.boundH).2⟩)

/-- The `except` block of `create_multiple_sizes`: best-effort deletion of
every file recorded in `results` so far. -/
def deleteWritten (store : Store) (results : List (String × Variant)) : Store :=
  results.foldl (fun s kv => storageDelete s kv.2.path) store

/-- The loop of `create_multiple_sizes` over the remaining jobs.  `i` is the
index of the current job and `failAt` injects the failure the code guards
against: when encoding/storing job `failAt` raises, the files written so
far are deleted and the exception propagates (`Except.error` carries the
store after cleanup). -/
def cmsAux (nw nh : Nat) (base : String) (failAt : Option Nat) :
    List VariantJob → Nat → List (String × Variant) → Store →
    Except Store (List (String × Variant) × Store)
  | [], _, acc, store => .ok (acc, store)
  | j :: rest, i, acc, store =>
    if failAt = some i then .error (deleteWritten store acc)
    else
      let ps := storageSave store (jobFileName base j)
      cmsAux nw nh base failAt rest (i + 1) (acc ++ [jobEntry nw nh j ps.1]) ps.2

/-- `create_multiple_sizes(image_file, base_name)`: EXIF auto-rotation,
then for each of the four enhanced sizes a WebP and a JPEG variant,
resized with `thumbnail`, encoded at the per-size quality and stored.
On a failure (`failAt`) all files written by this call are deleted and
the error propagates; otherwise the `results` dict and the new store
state are returned. -/
def create_multiple_sizes (store : Store) (img : PilImg) (base : String)
    (failAt : Option Nat) :
    Except Store (List (String × Variant) × Store) :=
  let n := exifAutoRotate img
  cmsAux n.width n.height base failAt variantJobs 0 [] store

/-- The result of a non-failing `create_multiple_sizes` call (the
`failAt := none` run never takes the error branch). -/
def cmsOk (store : Store) (img : PilImg) (base : String) :
    List (String × Variant) × Store :=
  match create_multiple_sizes store img base none with
  | .ok r => r
  | .error s => ([], s)

/-! ## `get_responsive_image_urls`, `cleanup_old_images`, `MenuItem.save` -/

/-- `get_responsive_image_urls(image_field)`: the `original` URL plus, for
each `MENU_IMAGE_SIZES` key, the URL of `f"{base_path}_{size_name}.jpg"`
when that file exists.  (An empty field yields `{}`.) -/
def get_responsive_image_urls (store : Store) (imageName : String) :
    List (String × String) :=
  if imageName.isEmpty then []
  else
    ("original", storageUrl imageName) ::
      MENU_IMAGE_SIZES.filterMap (fun s =>
        let sized := splitextRoot imageName ++ "_" ++ s.1 ++ ".jpg"
        if sized ∈ store then some (s.1, storageUrl sized) else none)

/-- `cleanup_old_images(old_image_path)`: when a path is given, delete it
if present, then for each `MENU_IMAGE_SIZES` key delete
`f"{base_path}_{size_name}.jpg"` if present.  Nothing else is touched. -/
def cleanup_old_images (store : Store) (old : Option String) : Store :=
  match old with
  | none => store
  | some p =>
    if p.isEmpty then store
    else
      let s1 := if p ∈ store then storageDelete store p else store
      MENU_IMAGE_SIZES.foldl (fun s sz =>
        let sized := splitextRoot p ++ "_" ++ sz.1 ++ ".jpg"
        if sized ∈ s then storageDelete s sized else s) s1

/-- Outcome of the image-handling slice of `MenuItem.save`. -/
structure SaveOutcome where
  store : Store
  mainName : String
  variants : List (String × Variant)
deriving DecidableEq

/-- The image-handling slice of `MenuItem.save`: the (already optimized)
main image is stored under its upload name, `create_multiple_sizes` writes
the responsive variants under `f"{slug}_{pk}"`, and finally — when an old
image existed under a different name — `cleanup_old_images` runs on the
old main path. -/
def menuItemSaveImage (store : Store) (oldMain : Option String) (img : PilImg)
    (uploadName slugPk : String) : SaveOutcome :=
  let ms := storageSave store uploadName
  let r := cmsOk ms.2 img slugPk
  let finalStore :=
    match oldMain with
    | some p => if p ≠ ms.1 then cleanup_old_images r.2 (some p) else r.2
    | none => r.2
  ⟨finalStore, ms.1, r.1⟩

/-! ## `generate_placeholder_image` -/

/-- A generated placeholder, at the granularity of its drawing inputs:
canvas size and background color, the rendered label (absent when no font
could be loaded), and the fixed border/cup colors. -/
structure PlaceholderImage where
  width : Nat
  height : Nat
  bgColor : String
  label : Option String
  borderColor : String
  cupColor : String
deriving DecidableEq

/-- `generate_placeholder_image(text, size, color_index)`: the background
color is `PLACEHOLDER_COLORS[color_index % len(PLACEHOLDER_COLORS)]`
(the index is always in range, so the `getD` default is unreachable);
text is drawn only when a font is available (`fontAvailable` models the
font-loading fallback chain), on top of the fixed border and cup glyph. -/
def generate_placeholder_image (text : String) (size : Nat × Nat)
    (colorIndex : Nat) (fontAvailable : Bool) : PlaceholderImage :=
  let bg := PLACEHOLDER_COLORS.getD (colorIndex % PLACEHOLDER_COLORS.length) ""
  { width := size.1, height := size.2, bgColor := bg,
    label := if fontAvailable then some text else none,
    borderColor := "#DDDDDD", cupColor := "#8D6E63" }

/-! ## `MenuImageField._determine_optimal_size_and_quality` (menu/fields.py)

This is the only place in the source where encoding quality is chosen by
classifying the source image; it governs the single optimized main image,
not the responsive variants.  The Python float tests
`abs(width/height - 16/9) < 0.1` and `abs(width/height - 4/3) < 0.1` are
modelled by the same comparisons over exact rationals (cleared of their
positive denominators). -/

def determine_optimal_size_and_quality (w h fileSize : Nat) : Nat × Nat × Nat :=
  let isLikelyPhonePhoto := 2000 < w ∨ 2000 < h
  let isLikelyAiImage :=
    (w = h ∨ ((90 * w : Int) - 160 * h).natAbs < 9 * h ∨
      ((30 * w : Int) - 40 * h).natAbs < 3 * h) ∧ 512 ≤ w
  let isLargeFile := 1024 * 1024 < fileSize
  if isLikelyPhonePhoto ∨ isLargeFile then (800, 600, 80)
  else if isLikelyAiImage then (1000, 800, 85)
  else if w ≤ 800 ∧ h ≤ 600 then (w, h, 90)
  else (1000, 800, 85)

/-! ## Auxiliary observers and claim statements

The spec makes some universal claims about the pipeline that turn out to
be false on the code; each such claim is stated verbatim as a `Prop`
below so that its refutation is a theorem about the very statement. -/

/-- Whether a `create_multiple_sizes` run raised. -/
def isErrorRun (e : Except Store (List (String × Variant) × Store)) : Bool :=
  match e with
  | .error _ => true
  | .ok _ => false

/-- The store state after a `create_multiple_sizes` run, whether it
succeeded or raised after its cleanup. -/
def runStore (e : Except Store (List (String × Variant) × Store)) : Store :=
  match e with
  | .error s => s
  | .ok r => r.2

/-- Two successive `MenuItem.save` operations for the same subject: the
second save sees the first save's main image as the old image. -/
def twoSaves (store : Store) (img1 img2 : PilImg) (up1 up2 slugPk : String) :
    SaveOutcome × SaveOutcome :=
  let o1 := menuItemSaveImage store none img1 up1 slugPk
  (o1, menuItemSaveImage o1.store (some o1.mainName) img2 up2 slugPk)

/-- A typical phone photo: 3000×2000 JPEG tagged with EXIF orientation 6
(rotate 90° clockwise to display upright). -/
def phonePhoto : PilImg := ⟨3000, 2000, "RGB", "JPEG", some 6, true⟩

/-- The quality the spec claims the variant generator assigns, as a
function of the source classification: phone photo (either dimension
above 2000) → 80, small pre-optimized source (within the 800×600 target
bounds) → 90, otherwise 85. -/
def claimedSourceQuality (w h : Nat) : Nat :=
  if 2000 < w ∨ 2000 < h then 80
  else if w ≤ 800 ∧ h ≤ 600 then 90
  else 85

/-- Claim C1 as stated: every variant produced by the variant generator is
encoded at the quality determined by classifying the source dimensions. -/
def C1_claim : Prop :=
  ∀ (store : Store) (img : PilImg) (base : String)
    (res : List (String × Variant)) (s' : Store),
    create_multiple_sizes store img base none = .ok (res, s') →
    ∀ kv ∈ res, kv.2.quality = claimedSourceQuality img.width img.height

/-- Claim C2 as stated: immediately after a successful generate call for a
subject key, the resolved descriptor set contains exactly the URLs of the
variants just written — every one of them and nothing else. -/
def C2_claim : Prop :=
  ∀ (store : Store) (img : PilImg) (key : String)
    (res : List (String × Variant)) (s' : Store),
    create_multiple_sizes store img key none = .ok (res, s') →
    ∀ u, u ∈ (get_responsive_image_urls s' (key ++ ".jpg")).map Prod.snd ↔
      u ∈ res.map (fun kv => storageUrl kv.2.path)

/-- Claim C3 as stated: normalizing the 3000×2000 orientation-6 phone
photo yields 2000×3000, and generating variants from it yields a card
variant of 300×400 pixels at quality 80, plus thumbnail, detail and hero
variants. -/
def C3_claim : Prop :=
  (exifAutoRotate phonePhoto).width = 2000 ∧
  (exifAutoRotate phonePhoto).height = 3000 ∧
  ((cmsOk [] phonePhoto "m").1.lookup "card_jpg").map
      (fun v => (v.actualW, v.actualH, v.quality)) = some (300, 400, 80) ∧
  ((cmsOk [] phonePhoto "m").1.lookup "thumbnail_jpg").isSome ∧
  ((cmsOk [] phonePhoto "m").1.lookup "detail_jpg").isSome ∧
  ((cmsOk [] phonePhoto "m").1.lookup "hero_jpg").isSome

/-- Claim C4 as stated: after two successive saves for the same subject,
no file of the first save's variant set is still in the store, and the
resolved URLs all come from the second save's set. -/
def C4_claim : Prop :=
  ∀ (store : Store) (img1 img2 : PilImg) (up1 up2 slugPk : String),
    (∀ p ∈ (twoSaves store img1 img2 up1 up2 slugPk).1.mainName ::
        (twoSaves store img1 img2 up1 up2 slugPk).1.variants.map (fun kv => kv.2.path),
      p ∉ (twoSaves store img1 img2 up1 up2 slugPk).2.store) ∧
    (∀ u ∈ (get_responsive_image_urls (twoSaves store img1 img2 up1 up2 slugPk).2.store
          (twoSaves store img1 img2 up1 up2 slugPk).2.mainName).map Prod.snd,
      u = storageUrl (twoSaves store img1 img2 up1 up2 slugPk).2.mainName ∨
      ∃ kv ∈ (twoSaves store img1 img2 up1 up2 slugPk).2.variants,
        u = storageUrl kv.2.path)

/-! # Theorems -/

/-! ## Generic helper lemmas -/

/-- String append is associative (at the list-of-characters level). -/
theorem strAppend_assoc (a b c : String) : (a ++ b) ++ c = a ++ (b ++ c) := by
  rcases a with ⟨A⟩; rcases b with ⟨B⟩; rcases c with ⟨C⟩
  show String.mk ((A ++ B) ++ C) = String.mk (A ++ (B ++ C))
  rw [List.append_assoc]

/-- String append is left-cancellative. -/
theorem strAppend_left_cancel {a s t : String} (h : a ++ s = a ++ t) : s = t := by
  rcases a with ⟨A⟩; rcases s with ⟨S⟩; rcases t with ⟨T⟩
  have hd : A ++ S = A ++ T := congrArg String.data h
  exact congrArg String.mk (List.append_cancel_left hd)

/-- `|a - b| ≤ c` over the integers, from the two Nat-level bounds. -/
theorem natAbs_sub_le_of {a b c : Nat} (h1 : a ≤ b + c) (h2 : b ≤ a + c) :
    ((a : Int) - b).natAbs ≤ c := by omega

/-! ## C8: orientation normalization is idempotent -/

/-- Images that do not expose `_getexif` pass through unchanged. -/
theorem exifAutoRotate_of_not_getexif (j : PilImg) (hj : j.hasGetexif = false) :
    exifAutoRotate j = j := by
  simp [exifAutoRotate, hj]

/-- Claim C8: orientation normalization is idempotent — a second pass over an
already-normalized image is a no-op for every input, and an image without
orientation metadata (no EXIF orientation entry, or no `_getexif` at all)
passes through unchanged. -/
theorem C8_normalize_idempotent (img : PilImg) :
    exifAutoRotate (exifAutoRotate img) = exifAutoRotate img ∧
    (img.orientation = none → exifAutoRotate img = img) ∧
    (img.hasGetexif = false → exifAutoRotate img = img) := by
  have rot : ∀ a : Nat, exifAutoRotate (rotateExpand img a) = rotateExpand img a :=
    fun a => exifAutoRotate_of_not_getexif _ rfl
  refine ⟨?_, ?_, exifAutoRotate_of_not_getexif img⟩
  · by_cases hg : img.hasGetexif
    · by_cases h3 : img.orientation = some 3
      · have e : exifAutoRotate img = rotateExpand img 180 := by
          simp [exifAutoRotate, hg, h3]
        rw [e]; exact rot 180
      · by_cases h6 : img.orientation = some 6
        · have e : exifAutoRotate img = rotateExpand img 270 := by
            simp [exifAutoRotate, hg, h3, h6]
          rw [e]; exact rot 270
        · by_cases h8 : img.orientation = some 8
          · have e : exifAutoRotate img = rotateExpand img 90 := by
              simp [exifAutoRotate, hg, h3, h6, h8]
            rw [e]; exact rot 90
          · have e : exifAutoRotate img = img := by
              simp [exifAutoRotate, hg, h3, h6, h8]
            rw [e]; exact e
    · have e := exifAutoRotate_of_not_getexif img (by simpa using hg)
      rw [e]; exact e
  · intro ho
    by_cases hg : img.hasGetexif
    · simp [exifAutoRotate, hg, ho]
    · exact exifAutoRotate_of_not_getexif img (by simpa using hg)

/-- Witness for C8 at a concrete input: the normalized phone photo is
stable under a second normalization pass, and stripping its orientation
entry makes normalization the identity. -/
theorem C8_normalize_idempotent_witness :
    exifAutoRotate (exifAutoRotate phonePhoto) = exifAutoRotate phonePhoto ∧
    exifAutoRotate ⟨3000, 2000, "RGB", "JPEG", none, true⟩ =
      ⟨3000, 2000, "RGB", "JPEG", none, true⟩ :=
  ⟨(C8_normalize_idempotent phonePhoto).1,
   (C8_normalize_idempotent ⟨3000, 2000, "RGB", "JPEG", none, true⟩).2.1 rfl⟩

/-! ## C9: placeholder background color is deterministic -/

/-- Claim C9: placeholder generation picks its background color
deterministically as `PLACEHOLDER_COLORS[color_index % len]`, independent
of the label text, the canvas size and font availability — so the same
arguments always yield the same background color. -/
theorem C9_placeholder_deterministic (text text' : String) (size : Nat × Nat)
    (i : Nat) (fa fa' : Bool) :
    (generate_placeholder_image text size i fa).bgColor =
      (generate_placeholder_image text' size i fa').bgColor ∧
    (generate_placeholder_image text size i fa).bgColor =
      PLACEHOLDER_COLORS.getD (i % PLACEHOLDER_COLORS.length) "" :=
  ⟨rfl, rfl⟩

/-! ## C10: validate_image is total with a definite error message -/

/-- Claim C10: `validate_image` always returns a `(is_valid, error_message)`
pair (it is a total function, exceptions being modelled as inputs): on
success the pair is `(true, none)`, and on any failure the message is a
non-empty string. -/
theorem C10_validate_total (f : ImageFile) :
    ((validate_image f).1 = true → (validate_image f).2 = none) ∧
    ((validate_image f).1 = false →
      ∃ m, (validate_image f).2 = some m ∧ 0 < m.length) := by
  rcases f with ⟨sz, nm, dec, rr⟩
  unfold validate_image
  rcases dec with _ | img <;> dsimp only <;>
    split_ifs <;>
      first
        | exact ⟨fun h => by simp at h, fun _ => ⟨_, rfl, by decide⟩⟩
        | exact ⟨fun _ => rfl, fun h => by simp at h⟩

/-- Witness for C10 at concrete inputs: a valid 5 MiB JPEG yields
`(true, none)`; a corrupt stream yields a non-empty message. -/
theorem C10_validate_total_witness :
    (validate_image ⟨some MAX_FILE_SIZE, some "photo.jpg",
        some ⟨4096, 4096, "RGB", "JPEG", none, true⟩, false⟩).2 = none ∧
    ∃ m, (validate_image ⟨some 100, some "photo.jpg", none, false⟩).2 = some m ∧
      0 < m.length :=
  ⟨(C10_validate_total ⟨some MAX_FILE_SIZE, some "photo.jpg",
      some ⟨4096, 4096, "RGB", "JPEG", none, true⟩, false⟩).1 (by decide),
   (C10_validate_total ⟨some 100, some "photo.jpg", none, false⟩).2 (by decide)⟩

/-! ## C6: validation boundaries -/

/-- Claim C6: validation accepts a file of exactly `MAX_FILE_SIZE` (5 MiB)
bytes and rejects one byte more with the too-large message; it accepts a
4096×4096 image and rejects 4097 on either axis with the
dimensions-too-large message (given, in each acceptance case, that the
other checks pass). -/
theorem C6_validation_boundaries :
    (∀ (f : ImageFile) (img : PilImg), f.readRaises = false →
        f.size = some MAX_FILE_SIZE → extBad f = false → f.decoded = some img →
        img.format ∈ ALLOWED_FORMATS → img.width ≤ 4096 → img.height ≤ 4096 →
        validate_image f = (true, none)) ∧
    (∀ f : ImageFile, f.readRaises = false → f.size = some (MAX_FILE_SIZE + 1) →
        validate_image f =
          (false, some "Image file too large. Maximum size is 5MB.")) ∧
    (∀ (f : ImageFile) (img : PilImg), f.readRaises = false →
        sizeExceeds f = false → extBad f = false → f.decoded = some img →
        img.format ∈ ALLOWED_FORMATS → img.width = 4096 → img.height = 4096 →
        validate_image f = (true, none)) ∧
    (∀ (f : ImageFile) (img : PilImg), f.readRaises = false →
        sizeExceeds f = false → extBad f = false → f.decoded = some img →
        img.format ∈ ALLOWED_FORMATS → img.width = 4097 ∨ img.height = 4097 →
        validate_image f =
          (false, some "Image dimensions too large. Maximum: 4096x4096 pixels.")) := by
  refine ⟨?_, ?_, ?_, ?_⟩
  · intro f img hr hs he hd hfmt hw hh
    have hsz : sizeExceeds f = false := by simp [sizeExceeds, hs]
    simp [validate_image, hr, hsz, he, hd, hfmt]
    omega
  · intro f hr hs
    have hsz : sizeExceeds f = true := by simp [sizeExceeds, hs, MAX_FILE_SIZE]
    simp [validate_image, hr, hsz]
  · intro f img hr hsz he hd hfmt hw hh
    simp [validate_image, hr, hsz, he, hd, hfmt, hw, hh]
  · intro f img hr hsz he hd hfmt hwh
    have : 4096 < img.width ∨ 4096 < img.height := by omega
    simp [validate_image, hr, hsz, he, hd, hfmt, this]

/-- Witness for C6 at concrete inputs: a 5 MiB 4096×4096 JPEG passes, one
extra byte is rejected as too large, and a 4097-pixel-wide image is
rejected as too large in dimensions. -/
theorem C6_validation_boundaries_witness :
    validate_image ⟨some MAX_FILE_SIZE, some "photo.jpg",
        some ⟨4096, 4096, "RGB", "JPEG", none, true⟩, false⟩ = (true, none) ∧
    validate_image ⟨some (MAX_FILE_SIZE + 1), some "photo.jpg",
        some ⟨4096, 4096, "RGB", "JPEG", none, true⟩, false⟩ =
      (false, some "Image file too large. Maximum size is 5MB.") ∧
    validate_image ⟨some 100, some "photo.jpg",
        some ⟨4097, 2000, "RGB", "JPEG", none, true⟩, false⟩ =
      (false, some "Image dimensions too large. Maximum: 4096x4096 pixels.") :=
  ⟨C6_validation_boundaries.1 _ _ rfl rfl (by decide) rfl (by decide)
      (by decide) (by decide),
   C6_validation_boundaries.2.1 _ rfl rfl,
   C6_validation_boundaries.2.2.2 _ _ rfl (by decide) (by decide) rfl
      (by decide) (Or.inl rfl)⟩

/-! ## C1: how encoding quality is chosen -/

/-- In a successful `create_multiple_sizes` run, the result keys and
qualities are exactly those of the job list — independent of the source
image and of the store. -/
theorem cmsAux_ok_quality (nw nh : Nat) (base : String) :
    ∀ (jobs : List VariantJob) (i : Nat) (acc : List (String × Variant))
      (store : Store) (res : List (String × Variant)) (s' : Store),
      cmsAux nw nh base none jobs i acc store = .ok (res, s') →
      res.map (fun kv => (kv.1, kv.2.quality)) =
        acc.map (fun kv => (kv.1, kv.2.quality)) ++
          jobs.map (fun j => (j.sizeName ++ "_" ++ j.ext, j.quality)) := by
  intro jobs
  induction jobs with
  | nil =>
    intro i acc store res s' h
    simp only [cmsAux, Except.ok.injEq, Prod.mk.injEq] at h
    simp [h.1]
  | cons j rest ih =>
    intro i acc store res s' h
    simp only [cmsAux, reduceCtorEq, if_false] at h
    have := ih (i + 1) _ _ res s' h
    simpa [jobEntry] using this

/-- Claim C1 counterexample: for the 3000×2000 source (a phone photo by the
claimed classification) the thumbnail WebP variant is encoded at quality
75, not 80 — the variant generator does not choose quality by classifying
the source. -/
theorem C1_counterexample : ¬ C1_claim := by
  intro hcl
  have h := hcl [] ⟨3000, 2000, "RGB", "JPEG", none, true⟩ "m" _ _ rfl
    ("thumbnail_webp", ⟨"m_thumbnail.webp", "WebP", 150, 150, 75, 150, 100⟩)
    (by decide)
  exact absurd h (by decide)

/-- Claim C1 (amended): in `create_multiple_sizes`, encoding quality depends
only on the variant's size name and format, never on the source image:
thumbnails get WebP 75 / JPEG 80, hero gets WebP 90 / JPEG 85, card and
detail get 85 for both formats.  The source-classification heuristic of
the claim lives in `MenuImageField._determine_optimal_size_and_quality`
(which governs the single optimized main image): there, a source with
either dimension above 2000 is indeed encoded at quality 80. -/
theorem C1_amended :
    (∀ (store : Store) (img : PilImg) (base : String)
        (res : List (String × Variant)) (s' : Store),
        create_multiple_sizes store img base none = .ok (res, s') →
        res.map (fun kv => (kv.1, kv.2.quality)) =
          variantJobs.map (fun j => (j.sizeName ++ "_" ++ j.ext, j.quality))) ∧
    variantQualities "thumbnail" = (75, 80) ∧
    variantQualities "card" = (85, 85) ∧
    variantQualities "detail" = (85, 85) ∧
    variantQualities "hero" = (90, 85) ∧
    (∀ w h fs : Nat, 2000 < w ∨ 2000 < h →
        (determine_optimal_size_and_quality w h fs).2.2 = 80) := by
  refine ⟨?_, rfl, rfl, rfl, rfl, ?_⟩
  · intro store img base res s' h
    simpa using cmsAux_ok_quality _ _ base variantJobs 0 [] store res s' h
  · intro w h fs hwh
    have : (2000 < w ∨ 2000 < h) ∨ 1024 * 1024 < fs := Or.inl hwh
    simp [determine_optimal_size_and_quality, this]

/-- Witness for C1 (amended) at a concrete input: the qualities of a run
on the phone photo follow the per-size table, and the main-image
optimizer assigns quality 80 to a 3000-pixel-wide source. -/
theorem C1_amended_witness :
    (cmsOk [] phonePhoto "m").1.map (fun kv => (kv.1, kv.2.quality)) =
      variantJobs.map (fun j => (j.sizeName ++ "_" ++ j.ext, j.quality)) ∧
    (determine_optimal_size_and_quality 3000 2000 0).2.2 = 80 :=
  ⟨C1_amended.1 [] phonePhoto "m" _ _ rfl,
   C1_amended.2.2.2.2.2 3000 2000 0 (Or.inl (by decide))⟩

/-! ## C3: the concrete phone-photo scenario -/

/-- Claim C3 counterexample: the claimed concrete scenario is false on the
code — for the normalized 2000×3000 source, the card variant measures
200×300 (fitting 400×300 means scaling by 1/10, not 300×400, which would
not even fit the 300-pixel height bound) and is encoded at quality 85,
not 80. -/
theorem C3_counterexample : ¬ C3_claim := by
  unfold C3_claim
  decide

/-- Claim C3 (amended): normalizing the 3000×2000 orientation-6 JPEG yields
a 2000×3000 upright image; `create_multiple_sizes` then produces a card
variant of 200×300 at quality 85 (both formats), a 100×150 thumbnail
(WebP 75 / JPEG 80), a 400×600 detail at 85, and a 600×900 hero
(WebP 90 / JPEG 85). -/
theorem C3_amended :
    (exifAutoRotate phonePhoto).width = 2000 ∧
    (exifAutoRotate phonePhoto).height = 3000 ∧
    ((cmsOk [] phonePhoto "m").1.lookup "card_jpg").map
        (fun v => (v.actualW, v.actualH, v.quality)) = some (200, 300, 85) ∧
    ((cmsOk [] phonePhoto "m").1.lookup "card_webp").map
        (fun v => (v.actualW, v.actualH, v.quality)) = some (200, 300, 85) ∧
    ((cmsOk [] phonePhoto "m").1.lookup "thumbnail_jpg").map
        (fun v => (v.actualW, v.actualH, v.quality)) = some (100, 150, 80) ∧
    ((cmsOk [] phonePhoto "m").1.lookup "thumbnail_webp").map
        (fun v => (v.actualW, v.actualH, v.quality)) = some (100, 150, 75) ∧
    ((cmsOk [] phonePhoto "m").1.lookup "detail_jpg").map
        (fun v => (v.actualW, v.actualH, v.quality)) = some (400, 600, 85) ∧
    ((cmsOk [] phonePhoto "m").1.lookup "hero_jpg").map
        (fun v => (v.actualW, v.actualH, v.quality)) = some (600, 900, 85) ∧
    ((cmsOk [] phonePhoto "m").1.lookup "hero_webp").map
        (fun v => (v.actualW, v.actualH, v.quality)) = some (600, 900, 90) := by
  decide

/-! ## C5: variant dimensions fit the bounds and keep the aspect ratio -/

/-- Width branch of `round_aspect`: with `ty ≤ h` and `w*ty ≤ tx*h`, the
chosen width fits the target width, never exceeds the source width, and
is within one pixel of the exact aspect-preserving width (scaled by `h`:
the error of `x*h` against `ty*w` is at most `h`). -/
theorem roundAspectX_spec (w h tx ty : Nat) (hw : 1 ≤ w) (hh : 1 ≤ h)
    (htx : 1 ≤ tx) (hty : 1 ≤ ty)
    (hcond : w * ty ≤ tx * h) (hyh : ty ≤ h) :
    roundAspectX w h ty ≤ tx ∧ roundAspectX w h ty ≤ w ∧
    ((roundAspectX w h ty * h : Int) - (ty * w : Int)).natAbs ≤ h := by
  unfold roundAspectX
  dsimp only
  set q := ty * w / h with hqdef
  set r := ty * w % h with hrdef
  have hdm : h * q + r = ty * w := Nat.div_add_mod _ _
  have hrlt : r < h := by rw [hrdef]; exact Nat.mod_lt _ (by omega)
  have hmod : ty = h → r = 0 := fun he => by rw [hrdef, he, Nat.mul_mod_right]
  clear_value q r
  have hCle : h * q ≤ ty * w := by
    calc h * q ≤ h * q + r := Nat.le_add_right _ _
      _ = ty * w := hdm
  have hqtx : q ≤ tx := by
    have step : h * q ≤ h * tx := by
      calc h * q ≤ ty * w := hCle
        _ = w * ty := Nat.mul_comm _ _
        _ ≤ tx * h := hcond
        _ = h * tx := Nat.mul_comm _ _
    exact Nat.le_of_mul_le_mul_left step (by omega)
  have hqw : q ≤ w := by
    have step : h * q ≤ h * w := by
      calc h * q ≤ ty * w := hCle
        _ = w * ty := Nat.mul_comm _ _
        _ ≤ w * h := Nat.mul_le_mul_left w hyh
        _ = h * w := Nat.mul_comm _ _
    exact Nat.le_of_mul_le_mul_left step (by omega)
  split_ifs with hhalf
  · rcases Nat.eq_zero_or_pos q with hq0 | hqpos
    · rw [hq0] at hdm ⊢
      simp only [Nat.zero_mul, Nat.mul_zero, Nat.zero_add] at hdm
      have hmax : max 0 1 = 1 := rfl
      rw [hmax]
      refine ⟨htx, hw, ?_⟩
      have h1 : 1 * h ≤ ty * w + h := by
        rw [Nat.one_mul]; exact Nat.le_add_left _ _
      have h2 : ty * w ≤ 1 * h + h := by
        rw [Nat.one_mul, ← hdm]; omega
      have H := natAbs_sub_le_of h1 h2
      push_cast at H ⊢
      exact H
    · have hmax : max q 1 = q := Nat.max_eq_left hqpos
      rw [hmax]
      refine ⟨hqtx, hqw, ?_⟩
      have h1 : q * h ≤ ty * w + h := by
        calc q * h = h * q := Nat.mul_comm _ _
          _ ≤ ty * w := hCle
          _ ≤ ty * w + h := Nat.le_add_right _ _
      have h2 : ty * w ≤ q * h + h := by
        calc ty * w = h * q + r := hdm.symm
          _ ≤ h * q + h := Nat.add_le_add_left hrlt.le _
          _ = q * h + h := by rw [Nat.mul_comm h q]
      have H := natAbs_sub_le_of h1 h2
      push_cast at H ⊢
      exact H
  · have hr1 : 1 ≤ r := by omega
    have hmax : max (q + 1) 1 = q + 1 := Nat.max_eq_left (by omega)
    rw [hmax]
    have hqtx' : q + 1 ≤ tx := by
      have step : h * q < h * tx := by
        calc h * q < h * q + r := Nat.lt_add_of_pos_right (by omega)
          _ = ty * w := hdm
          _ = w * ty := Nat.mul_comm _ _
          _ ≤ tx * h := hcond
          _ = h * tx := Nat.mul_comm _ _
      have := Nat.lt_of_mul_lt_mul_left step
      omega
    have hqw' : q + 1 ≤ w := by
      have hty_ne : ty ≠ h := by
        intro he
        have := hmod he
        omega
      have s1 : ty * w ≤ (h - 1) * w :=
        Nat.mul_le_mul_right w (by omega)
      have s3 : (h - 1) * w < h * w :=
        (mul_lt_mul_right (show 0 < w by omega)).mpr (by omega)
      have step : h * q < h * w := lt_of_le_of_lt (le_trans hCle s1) s3
      have := Nat.lt_of_mul_lt_mul_left step
      omega
    refine ⟨hqtx', hqw', ?_⟩
    have h1 : (q + 1) * h ≤ ty * w + h := by
      have e : (q + 1) * h = h * q + h := by ring
      rw [e]
      exact Nat.add_le_add_right hCle h
    have h2 : ty * w ≤ (q + 1) * h + h := by
      have e : (q + 1) * h = h * q + h := by ring
      rw [e]
      calc ty * w = h * q + r := hdm.symm
        _ ≤ h * q + (h + h) := Nat.add_le_add_left (by omega) _
        _ = h * q + h + h := by ring
    have H := natAbs_sub_le_of h1 h2
    push_cast at H ⊢
    exact H

/-- Height branch of `round_aspect`: with `tx ≤ w` and `tx*h < w*ty`, the
chosen height fits the target height, never exceeds the source height,
and is within one pixel of the exact aspect-preserving height. -/
theorem roundAspectY_spec (w h tx ty : Nat) (hw : 1 ≤ w) (hh : 1 ≤ h)
    (htx : 1 ≤ tx) (hty : 1 ≤ ty)
    (hcond : tx * h < w * ty) (hxw : tx ≤ w) :
    roundAspectY w h tx ≤ ty ∧ roundAspectY w h tx ≤ h ∧
    ((tx * h : Int) - (roundAspectY w h tx * w : Int)).natAbs ≤ w := by
  unfold roundAspectY
  dsimp only
  set q := tx * h / w with hqdef
  set r := tx * h % w with hrdef
  have hdm : w * q + r = tx * h := Nat.div_add_mod _ _
  have hrlt : r < w := by rw [hrdef]; exact Nat.mod_lt _ (by omega)
  have hmod : tx = w → r = 0 := fun he => by rw [hrdef, he, Nat.mul_mod_right]
  clear_value q r
  have hCle : w * q ≤ tx * h := by
    calc w * q ≤ w * q + r := Nat.le_add_right _ _
      _ = tx * h := hdm
  have hqty : q < ty :=
    Nat.lt_of_mul_lt_mul_left (lt_of_le_of_lt hCle hcond)
  have hqh : q ≤ h := by
    have step : w * q ≤ w * h := by
      calc w * q ≤ tx * h := hCle
        _ ≤ w * h := Nat.mul_le_mul_right h hxw
    exact Nat.le_of_mul_le_mul_left step (by omega)
  have case0 : q = 0 →
      max 0 1 ≤ ty ∧ max 0 1 ≤ h ∧
      ((tx * h : Int) - ((max 0 1 : Nat) * w : Int)).natAbs ≤ w := by
    intro hq0
    rw [hq0] at hdm
    simp only [Nat.mul_zero, Nat.zero_add] at hdm
    have hmax : max 0 1 = 1 := rfl
    rw [hmax]
    refine ⟨hty, hh, ?_⟩
    have h1 : tx * h ≤ 1 * w + w := by rw [Nat.one_mul, ← hdm]; omega
    have h2 : 1 * w ≤ tx * h + w := by rw [Nat.one_mul]; exact Nat.le_add_left _ _
    have H := natAbs_sub_le_of h1 h2
    push_cast at H ⊢
    exact H
  have caseq : 1 ≤ q →
      max q 1 ≤ ty ∧ max q 1 ≤ h ∧
      ((tx * h : Int) - ((max q 1 : Nat) * w : Int)).natAbs ≤ w := by
    intro hqpos
    have hmax : max q 1 = q := Nat.max_eq_left hqpos
    rw [hmax]
    refine ⟨hqty.le, hqh, ?_⟩
    have h1 : tx * h ≤ q * w + w := by
      calc tx * h = w * q + r := hdm.symm
        _ ≤ w * q + w := Nat.add_le_add_left hrlt.le _
        _ = q * w + w := by rw [Nat.mul_comm w q]
    have h2 : q * w ≤ tx * h + w := by
      calc q * w = w * q := Nat.mul_comm _ _
        _ ≤ tx * h := hCle
        _ ≤ tx * h + w := Nat.le_add_right _ _
    have H := natAbs_sub_le_of h1 h2
    push_cast at H ⊢
    exact H
  have caseq1 : 1 ≤ r →
      max (q + 1) 1 ≤ ty ∧ max (q + 1) 1 ≤ h ∧
      ((tx * h : Int) - ((max (q + 1) 1 : Nat) * w : Int)).natAbs ≤ w := by
    intro hr1
    have hmax : max (q + 1) 1 = q + 1 := Nat.max_eq_left (by omega)
    rw [hmax]
    have hqh' : q + 1 ≤ h := by
      have htx_ne : tx ≠ w := by
        intro he
        have := hmod he
        omega
      have s1 : tx * h ≤ (w - 1) * h :=
        Nat.mul_le_mul_right h (by omega)
      have s3 : (w - 1) * h < w * h :=
        (mul_lt_mul_right (show 0 < h by omega)).mpr (by omega)
      have step : w * q < w * h := lt_of_le_of_lt (le_trans hCle s1) s3
      have := Nat.lt_of_mul_lt_mul_left step
      omega
    refine ⟨by omega, hqh', ?_⟩
    have h1 : tx * h ≤ (q + 1) * w + w := by
      calc tx * h = w * q + r := hdm.symm
        _ ≤ w * q + w := Nat.add_le_add_left hrlt.le _
        _ = (q + 1) * w := by ring
        _ ≤ (q + 1) * w + w := Nat.le_add_right _ _
    have h2 : (q + 1) * w ≤ tx * h + w := by
      calc (q + 1) * w = w * q + w := by ring
        _ ≤ tx * h + w := Nat.add_le_add_right hCle w
    have H := natAbs_sub_le_of h1 h2
    push_cast at H ⊢
    exact H
  rcases Nat.eq_zero_or_pos q with hq0 | hqpos
  · rw [if_pos hq0]
    exact case0 hq0
  · rw [if_neg (by omega : ¬q = 0)]
    rcases Nat.eq_zero_or_pos r with hr0 | hrpos
    · rw [show (if r = 0 then q else q + 1) = q from if_pos hr0, ite_self]
      exact caseq hqpos
    · rw [show (if r = 0 then q else q + 1) = q + 1 from if_neg (by omega)]
      by_cases hkey : tx * h * (q + (q + 1)) ≤ 2 * w * q * (q + 1)
      · rw [if_pos hkey]
        exact caseq hqpos
      · rw [if_neg hkey]
        exact caseq1 hrpos

/-- `Image.thumbnail` at the dimension level: the result fits the target
bounds, never upscales beyond the source, and keeps the source aspect
ratio up to one pixel of rounding (the cross products differ by at most
the larger source dimension). -/
theorem pilThumbnail_spec (w h tx ty : Nat) (hw : 1 ≤ w) (hh : 1 ≤ h)
    (htx : 1 ≤ tx) (hty : 1 ≤ ty) :
    (pilThumbnail w h tx ty).1 ≤ tx ∧ (pilThumbnail w h tx ty).2 ≤ ty ∧
    (pilThumbnail w h tx ty).1 ≤ w ∧ (pilThumbnail w h tx ty).2 ≤ h ∧
    (((pilThumbnail w h tx ty).1 * h : Int) -
        ((pilThumbnail w h tx ty).2 * w : Int)).natAbs ≤ max w h := by
  unfold pilThumbnail
  split_ifs with hfit hbr
  · obtain ⟨h1, h2⟩ := hfit
    refine ⟨h1, h2, le_refl w, le_refl h, ?_⟩
    have e : ((w : Int) * h - (h : Int) * w) = 0 := by ring
    simp [e]
  · have hyh : ty ≤ h := by
      by_contra hc
      push_neg at hc
      have c1 : w * h < w * ty := (mul_lt_mul_left (show 0 < w by omega)).mpr hc
      have c2 : w * h < tx * h := lt_of_lt_of_le c1 hbr
      have c3 : w < tx := lt_of_mul_lt_mul_right c2 (Nat.zero_le h)
      exact hfit ⟨c3.le, hc.le⟩
    obtain ⟨g1, g2, g3⟩ := roundAspectX_spec w h tx ty hw hh htx hty hbr hyh
    exact ⟨g1, le_refl ty, g2, hyh, le_trans g3 (le_max_right w h)⟩
  · push_neg at hbr
    have hxw : tx ≤ w := by
      by_contra hc
      push_neg at hc
      have hyl : ty < h := by
        by_contra hc2
        push_neg at hc2
        exact hfit ⟨hc.le, hc2⟩
      have c1 : w * ty < w * h := (mul_lt_mul_left (show 0 < w by omega)).mpr hyl
      have c2 : w * h ≤ tx * h := Nat.mul_le_mul_right h hc.le
      exact absurd (lt_of_lt_of_le (lt_trans hbr c1) c2) (lt_irrefl _)
    obtain ⟨g1, g2, g3⟩ := roundAspectY_spec w h tx ty hw hh htx hty hbr hxw
    exact ⟨le_refl tx, g1, hxw, g2, le_trans g3 (le_max_left w h)⟩

/-- EXIF auto-rotation only permutes the pixel dimensions, so positivity
is preserved. -/
theorem exifAutoRotate_pos (img : PilImg) (hw : 1 ≤ img.width)
    (hh : 1 ≤ img.height) :
    1 ≤ (exifAutoRotate img).width ∧ 1 ≤ (exifAutoRotate img).height := by
  unfold exifAutoRotate rotateExpand
  split_ifs <;> refine ⟨?_, ?_⟩ <;> assumption

/-- Every entry of a successful `create_multiple_sizes` run is the entry
of one of the catalog jobs, with the resized dimensions computed by
`thumbnail` from the normalized source. -/
theorem cmsAux_ok_mem (nw nh : Nat) (base : String) :
    ∀ (jobs : List VariantJob) (i : Nat) (acc : List (String × Variant))
      (store : Store) (res : List (String × Variant)) (s' : Store),
      cmsAux nw nh base none jobs i acc store = .ok (res, s') →
      ∀ kv ∈ res, kv ∈ acc ∨ ∃ j ∈ jobs, ∃ p, kv = jobEntry nw nh j p := by
  intro jobs
  induction jobs with
  | nil =>
    intro i acc store res s' h kv hkv
    simp only [cmsAux, Except.ok.injEq, Prod.mk.injEq] at h
    exact Or.inl (by rw [h.1]; exact hkv)
  | cons j rest ih =>
    intro i acc store res s' h kv hkv
    simp only [cmsAux, reduceCtorEq, if_false] at h
    rcases ih (i + 1) _ _ res s' h kv hkv with hin | ⟨j', hj', p, hp⟩
    · rcases List.mem_append.mp hin with h1 | h1
      · exact Or.inl h1
      · simp only [List.mem_singleton] at h1
        exact Or.inr ⟨j, List.mem_cons_self _ _, _, h1⟩
    · exact Or.inr ⟨j', List.mem_cons_of_mem _ hj', p, hp⟩

/-- Claim C5: every variant produced from a (nonempty) source fits its
spec's bounds, never upscales beyond the (normalized) source dimensions,
and keeps the source aspect ratio up to one pixel of rounding error
(cross products within the larger source dimension).  The source of the
resize is the EXIF-normalized image, from which all variants are derived
inside `create_multiple_sizes`. -/
theorem C5_variant_bounds (img : PilImg) (store : Store) (base : String)
    (res : List (String × Variant)) (s' : Store)
    (hw : 1 ≤ img.width) (hh : 1 ≤ img.height)
    (heq : create_multiple_sizes store img base none = .ok (res, s')) :
    ∀ kv ∈ res,
      kv.2.actualW ≤ kv.2.boundW ∧ kv.2.actualH ≤ kv.2.boundH ∧
      kv.2.actualW ≤ (exifAutoRotate img).width ∧
      kv.2.actualH ≤ (exifAutoRotate img).height ∧
      ((kv.2.actualW * (exifAutoRotate img).height : Int) -
          (kv.2.actualH * (exifAutoRotate img).width : Int)).natAbs ≤
        max (exifAutoRotate img).width (exifAutoRotate img).height := by
  intro kv hkv
  obtain ⟨hnw, hnh⟩ := exifAutoRotate_pos img hw hh
  unfold create_multiple_sizes at heq
  rcases cmsAux_ok_mem _ _ base variantJobs 0 [] store res s' heq kv hkv with
    hin | ⟨j, hj, p, hp⟩
  · simp at hin
  · have hjb : ∀ j' ∈ variantJobs, 1 ≤ j'.boundW ∧ 1 ≤ j'.boundH := by decide
    obtain ⟨hbw, hbh⟩ := hjb j hj
    subst hp
    simp only [jobEntry]
    exact pilThumbnail_spec (exifAutoRotate img).width (exifAutoRotate img).height
      j.boundW j.boundH hnw hnh hbw hbh

/-- Witness for C5 at a concrete input: the card JPEG variant of the
normalized phone photo measures 200×300, fitting its 400×300 bound,
not exceeding the 2000×3000 source, with exact 2:3 aspect ratio. -/
theorem C5_variant_bounds_witness :
    (("card_jpg", (⟨"m_card.jpg", "JPEG", 400, 300, 85, 200, 300⟩ : Variant)).2.actualW ≤
        ("card_jpg", (⟨"m_card.jpg", "JPEG", 400, 300, 85, 200, 300⟩ : Variant)).2.boundW) ∧
    (("card_jpg", (⟨"m_card.jpg", "JPEG", 400, 300, 85, 200, 300⟩ : Variant)).2.actualH ≤
        ("card_jpg", (⟨"m_card.jpg", "JPEG", 400, 300, 85, 200, 300⟩ : Variant)).2.boundH) ∧
    (("card_jpg", (⟨"m_card.jpg", "JPEG", 400, 300, 85, 200, 300⟩ : Variant)).2.actualW ≤
        (exifAutoRotate phonePhoto).width) ∧
    (("card_jpg", (⟨"m_card.jpg", "JPEG", 400, 300, 85, 200, 300⟩ : Variant)).2.actualH ≤
        (exifAutoRotate phonePhoto).height) ∧
    (((("card_jpg", (⟨"m_card.jpg", "JPEG", 400, 300, 85, 200, 300⟩ : Variant)).2.actualW *
            (exifAutoRotate phonePhoto).height : Int) -
        (("card_jpg", (⟨"m_card.jpg", "JPEG", 400, 300, 85, 200, 300⟩ : Variant)).2.actualH *
            (exifAutoRotate phonePhoto).width : Int)).natAbs ≤
      max (exifAutoRotate phonePhoto).width (exifAutoRotate phonePhoto).height) :=
  C5_variant_bounds phonePhoto [] "m" _ _ (by decide) (by decide) rfl
    ("card_jpg", ⟨"m_card.jpg", "JPEG", 400, 300, 85, 200, 300⟩) (by decide)

/-! ## C7: a failed generate call cleans up after itself -/

/-- Every stored path is at most as long as the store's maximum. -/
theorem mem_length_le_storeMaxLen {p : String} {store : Store} (hp : p ∈ store) :
    p.data.length ≤ storeMaxLen store := by
  induction store with
  | nil => cases hp
  | cons a l ih =>
    rcases List.mem_cons.mp hp with h | h
    · subst h
      exact le_max_left _ _
    · exact le_trans (ih h) (le_max_right _ _)

/-- The fallback name is longer than everything stored, hence fresh. -/
theorem fallbackName_not_mem (store : Store) : fallbackName store ∉ store := by
  intro hmem
  have h1 := mem_length_le_storeMaxLen hmem
  have h2 : (fallbackName store).data.length = storeMaxLen store + 1 := by
    simp [fallbackName]
  omega

/-- `Storage.save` never reuses an existing path. -/
theorem storageSave_fresh (store : Store) (name : String) :
    (storageSave store name).1 ∉ store := by
  unfold storageSave getAvailableName
  dsimp only
  split_ifs with hmem
  · rcases hfind : (List.range (store.length + 1)).find?
        (fun k => decide (altName name (k + 1) ∉ store)) with _ | k
    · exact fallbackName_not_mem store
    · simpa using List.find?_some hfind
  · exact hmem

/-- Erasing, in order, a duplicate-free batch of paths that all lie
outside `s0` from a store holding exactly the batch plus `s0` leaves
exactly `s0`. -/
theorem eraseList_perm (ps : List String) :
    ∀ (s0 cur : List String), cur.Perm (ps ++ s0) → ps.Nodup →
      (∀ p ∈ ps, p ∉ s0) →
      (ps.foldl (fun s p => s.erase p) cur).Perm s0 := by
  induction ps with
  | nil =>
    intro s0 cur hperm _ _
    simpa using hperm
  | cons a ps ih =>
    intro s0 cur hperm hnd hdisj
    simp only [List.foldl_cons]
    refine ih s0 (cur.erase a) ?_ (List.Nodup.of_cons hnd)
      (fun p hp => hdisj p (List.mem_cons_of_mem _ hp))
    have h1 : (cur.erase a).Perm ((a :: (ps ++ s0)).erase a) := hperm.erase a
    simpa using h1

/-- The cleanup loop of `create_multiple_sizes` is the fold erasing the
recorded paths. -/
theorem deleteWritten_eq_foldl (store : Store) (results : List (String × Variant)) :
    deleteWritten store results =
      (results.map (fun kv => kv.2.path)).foldl (fun s p => s.erase p) store := by
  rw [List.foldl_map]
  rfl

/-- A `create_multiple_sizes` run whose `failAt` index is still ahead
raises and, after deleting every file it wrote, leaves the store as the
invariant baseline `s0`. -/
theorem cmsAux_fail (nw nh : Nat) (base : String) (k : Nat) (s0 : Store) :
    ∀ (jobs : List VariantJob) (i : Nat) (acc : List (String × Variant))
      (store : Store),
      store.Perm (acc.map (fun kv => kv.2.path) ++ s0) →
      (acc.map (fun kv => kv.2.path)).Nodup →
      (∀ p ∈ acc.map (fun kv => kv.2.path), p ∉ s0) →
      i ≤ k → k < i + jobs.length →
      ∃ s', cmsAux nw nh base (some k) jobs i acc store = .error s' ∧ s'.Perm s0 := by
  intro jobs
  induction jobs with
  | nil =>
    intro i acc store _ _ _ hik hk
    simp only [List.length_nil, Nat.add_zero] at hk
    omega
  | cons j rest ih =>
    intro i acc store hperm hnd hdisj hik hk
    by_cases hKi : k = i
    · refine ⟨deleteWritten store acc, ?_, ?_⟩
      · simp [cmsAux, hKi]
      · rw [deleteWritten_eq_foldl]
        exact eraseList_perm _ s0 store hperm hnd hdisj
    · have hcond : ¬((some k : Option Nat) = some i) := by simpa using hKi
      have hfresh : (storageSave store (jobFileName base j)).1 ∉ store :=
        storageSave_fresh store _
      set p := (storageSave store (jobFileName base j)).1 with hpdef
      have hnotin_acc : p ∉ acc.map (fun kv => kv.2.path) := fun hmem =>
        hfresh (hperm.mem_iff.mpr (List.mem_append.mpr (Or.inl hmem)))
      have hnotin_s0 : p ∉ s0 := fun hmem =>
        hfresh (hperm.mem_iff.mpr (List.mem_append.mpr (Or.inr hmem)))
      have hpath : (jobEntry nw nh j p).2.path = p := rfl
      have hperm' : (p :: store).Perm
          ((acc ++ [jobEntry nw nh j p]).map (fun kv => kv.2.path) ++ s0) := by
        simp only [List.map_append, List.map_cons, List.map_nil, hpath,
          List.append_assoc, List.singleton_append]
        have step1 : (p :: store).Perm
            (p :: (acc.map (fun kv => kv.2.path) ++ s0)) := hperm.cons p
        have step2 : (p :: (acc.map (fun kv => kv.2.path) ++ s0)).Perm
            (acc.map (fun kv => kv.2.path) ++ p :: s0) := List.perm_middle.symm
        exact step1.trans step2
      have hnd' : ((acc ++ [jobEntry nw nh j p]).map (fun kv => kv.2.path)).Nodup := by
        simp only [List.map_append, List.map_cons, List.map_nil, hpath]
        rw [List.nodup_append]
        exact ⟨hnd, List.nodup_singleton p,
          fun a ha hb => hnotin_acc (by simpa [List.mem_singleton.mp hb] using ha)⟩
      have hdisj' : ∀ q ∈ (acc ++ [jobEntry nw nh j p]).map (fun kv => kv.2.path),
          q ∉ s0 := by
        simp only [List.map_append, List.map_cons, List.map_nil, hpath]
        intro q hq
        rcases List.mem_append.mp hq with h1 | h1
        · exact hdisj q h1
        · rw [List.mem_singleton.mp h1]
          exact hnotin_s0
      have hk' : k < (i + 1) + rest.length := by
        simp only [List.length_cons] at hk
        omega
      obtain ⟨s', heq, hp'⟩ := ih (i + 1) (acc ++ [jobEntry nw nh j p]) (p :: store)
        hperm' hnd' hdisj' (by omega) hk'
      refine ⟨s', ?_, hp'⟩
      simp only [cmsAux, if_neg hcond]
      exact heq

/-- Claim C7: variant generation is all-or-nothing — if encoding/storing the
`k`-th variant fails, the call raises and every file it wrote beforehand
has been deleted, so the store is (as a multiset) exactly what it was
before the call. -/
theorem C7_all_or_nothing (store : Store) (img : PilImg) (base : String)
    (k : Nat) (hk : k < variantJobs.length) :
    isErrorRun (create_multiple_sizes store img base (some k)) = true ∧
    (runStore (create_multiple_sizes store img base (some k))).Perm store := by
  unfold create_multiple_sizes
  obtain ⟨s', heq, hperm⟩ := cmsAux_fail (exifAutoRotate img).width
    (exifAutoRotate img).height base k store variantJobs 0 [] store
    (by simp) (by simp) (by simp) (Nat.zero_le k) (by simpa using hk)
  rw [heq]
  exact ⟨rfl, hperm⟩

/-- Witness for C7 at a concrete input: with one pre-existing file, a run
failing at the fourth variant raises and leaves the store with exactly
that pre-existing file. -/
theorem C7_all_or_nothing_witness :
    isErrorRun (create_multiple_sizes ["pre.jpg"] phonePhoto "m" (some 3)) = true ∧
    (runStore (create_multiple_sizes ["pre.jpg"] phonePhoto "m" (some 3))).Perm
      ["pre.jpg"] :=
  C7_all_or_nothing ["pre.jpg"] phonePhoto "m" 3 (by decide)

/-! ## C2: what resolve_urls returns after a generate call -/

/-- Claim C2 counterexample: after generating variants for key `m` into an
empty store, the resolved URL set misses the hero WebP variant that was
just written (it only ever probes thumbnail/card/detail `.jpg` paths), so
the round-trip claim fails. -/
theorem C2_counterexample : ¬ C2_claim := by
  intro hcl
  have h := (hcl [] ⟨1000, 1000, "RGB", "JPEG", none, true⟩ "m" _ _ rfl
    (storageUrl "m_hero.webp")).2 (by decide)
  exact absurd h (by decide)

/-- `jobFileName` factors as appending a per-job suffix to the base. -/
theorem jobFileName_eq (base : String) (j : VariantJob) :
    jobFileName base j = base ++ ("_" ++ (j.sizeName ++ ("." ++ j.ext))) := by
  unfold jobFileName
  rw [strAppend_assoc, strAppend_assoc, strAppend_assoc]

/-- The eight filenames of one generate call, as base-plus-suffix. -/
theorem jobFileNames_eq (base : String) :
    variantJobs.map (jobFileName base) =
      ["_thumbnail.webp", "_thumbnail.jpg", "_card.webp", "_card.jpg",
       "_detail.webp", "_detail.jpg", "_hero.webp", "_hero.jpg"].map
        (fun c => base ++ c) := by
  have h : variantJobs =
      [⟨"thumbnail", 150, 150, "webp", "WebP", 75⟩,
       ⟨"thumbnail", 150, 150, "jpg", "JPEG", 80⟩,
       ⟨"card", 400, 300, "webp", "WebP", 85⟩,
       ⟨"card", 400, 300, "jpg", "JPEG", 85⟩,
       ⟨"detail", 800, 600, "webp", "WebP", 85⟩,
       ⟨"detail", 800, 600, "jpg", "JPEG", 85⟩,
       ⟨"hero", 1200, 900, "webp", "WebP", 90⟩,
       ⟨"hero", 1200, 900, "jpg", "JPEG", 85⟩] := rfl
  rw [h]
  simp only [List.map_cons, List.map_nil, jobFileName_eq]
  rfl

/-- The eight filenames of one generate call are pairwise distinct. -/
theorem jobFileNames_nodup (base : String) :
    (variantJobs.map (jobFileName base)).Nodup := by
  rw [jobFileNames_eq]
  refine List.Nodup.map (fun s t h => strAppend_left_cancel h) ?_
  decide

/-- A generate run over fresh filenames stores exactly those filenames
and records them in the result, in job order. -/
theorem cmsAux_ok_fresh (nw nh : Nat) (base : String) :
    ∀ (jobs : List VariantJob) (i : Nat) (acc : List (String × Variant))
      (store : Store),
      (∀ j ∈ jobs, jobFileName base j ∉ store) →
      (jobs.map (jobFileName base)).Nodup →
      cmsAux nw nh base none jobs i acc store =
        .ok (acc ++ jobs.map (fun j => jobEntry nw nh j (jobFileName base j)),
             (jobs.map (jobFileName base)).reverse ++ store) := by
  intro jobs
  induction jobs with
  | nil =>
    intro i acc store _ _
    simp [cmsAux]
  | cons j rest ih =>
    intro i acc store hfresh hnd
    have hj : jobFileName base j ∉ store := hfresh j (List.mem_cons_self _ _)
    have hnd2 : (jobFileName base j :: rest.map (jobFileName base)).Nodup := by
      simpa using hnd
    obtain ⟨hhead, htail⟩ := List.nodup_cons.mp hnd2
    have hsave : storageSave store (jobFileName base j) =
        (jobFileName base j, jobFileName base j :: store) := by
      unfold storageSave getAvailableName
      dsimp only
      rw [if_neg hj]
    have hfresh' : ∀ j' ∈ rest,
        jobFileName base j' ∉ jobFileName base j :: store := by
      intro j' hj'
      intro hmem
      rcases List.mem_cons.mp hmem with heq | hmem2
      · exact hhead (heq ▸ List.mem_map_of_mem _ hj')
      · exact hfresh j' (List.mem_cons_of_mem _ hj') hmem2
    simp only [cmsAux, reduceCtorEq, if_false, hsave]
    rw [ih (i + 1) _ _ hfresh' htail]
    simp [List.append_assoc]

/-- Claim C2 (amended): immediately after a generate call for `key` on a
store holding none of the call's filenames, `resolve_urls` (probed with
an image name whose root is `key`) returns the `original` URL plus
exactly the three thumbnail/card/detail JPEG variants just written; the
hero variant and all four WebP variants — equally just written — are not
part of the returned descriptor set. -/
theorem C2_amended (store : Store) (img : PilImg) (key imageName : String)
    (res : List (String × Variant)) (s' : Store)
    (hfresh : ∀ j ∈ variantJobs, jobFileName key j ∉ store)
    (hne : imageName.isEmpty = false)
    (hroot : splitextRoot imageName = key)
    (heq : create_multiple_sizes store img key none = .ok (res, s')) :
    get_responsive_image_urls s' imageName =
      [("original", storageUrl imageName),
       ("thumbnail", storageUrl (key ++ "_thumbnail.jpg")),
       ("card", storageUrl (key ++ "_card.jpg")),
       ("detail", storageUrl (key ++ "_detail.jpg"))] ∧
    (key ++ "_thumbnail.jpg") ∈ res.map (fun kv => kv.2.path) ∧
    (key ++ "_card.jpg") ∈ res.map (fun kv => kv.2.path) ∧
    (key ++ "_detail.jpg") ∈ res.map (fun kv => kv.2.path) ∧
    (key ++ "_hero.webp") ∈ res.map (fun kv => kv.2.path) := by
  unfold create_multiple_sizes at heq
  dsimp only at heq
  rw [cmsAux_ok_fresh _ _ key variantJobs 0 [] store hfresh
    (jobFileNames_nodup key)] at heq
  simp only [Except.ok.injEq, Prod.mk.injEq, List.nil_append] at heq
  obtain ⟨hres, hs'⟩ := heq
  subst hres
  subst hs'
  have hpaths : (variantJobs.map (fun j =>
      jobEntry (exifAutoRotate img).width (exifAutoRotate img).height j
        (jobFileName key j))).map (fun kv => kv.2.path) =
      variantJobs.map (jobFileName key) := by
    rw [List.map_map]
    rfl
  have hm1 : (key ++ "_thumbnail.jpg") ∈ (variantJobs.map (fun j =>
      jobEntry (exifAutoRotate img).width (exifAutoRotate img).height j
        (jobFileName key j))).map (fun kv => kv.2.path) := by
    rw [hpaths, jobFileNames_eq]
    exact List.mem_map_of_mem _ (by decide)
  have hm2 : (key ++ "_card.jpg") ∈ (variantJobs.map (fun j =>
      jobEntry (exifAutoRotate img).width (exifAutoRotate img).height j
        (jobFileName key j))).map (fun kv => kv.2.path) := by
    rw [hpaths, jobFileNames_eq]
    exact List.mem_map_of_mem _ (by decide)
  have hm3 : (key ++ "_detail.jpg") ∈ (variantJobs.map (fun j =>
      jobEntry (exifAutoRotate img).width (exifAutoRotate img).height j
        (jobFileName key j))).map (fun kv => kv.2.path) := by
    rw [hpaths, jobFileNames_eq]
    exact List.mem_map_of_mem _ (by decide)
  have hm4 : (key ++ "_hero.webp") ∈ (variantJobs.map (fun j =>
      jobEntry (exifAutoRotate img).width (exifAutoRotate img).height j
        (jobFileName key j))).map (fun kv => kv.2.path) := by
    rw [hpaths, jobFileNames_eq]
    exact List.mem_map_of_mem _ (by decide)
  refine ⟨?_, hm1, hm2, hm3, hm4⟩
  have hs1 : (key ++ "_thumbnail.jpg") ∈
      (variantJobs.map (jobFileName key)).reverse ++ store := by
    refine List.mem_append.mpr (Or.inl ?_)
    rw [List.mem_reverse, jobFileNames_eq]
    exact List.mem_map_of_mem _ (by decide)
  have hs2 : (key ++ "_card.jpg") ∈
      (variantJobs.map (jobFileName key)).reverse ++ store := by
    refine List.mem_append.mpr (Or.inl ?_)
    rw [List.mem_reverse, jobFileNames_eq]
    exact List.mem_map_of_mem _ (by decide)
  have hs3 : (key ++ "_detail.jpg") ∈
      (variantJobs.map (jobFileName key)).reverse ++ store := by
    refine List.mem_append.mpr (Or.inl ?_)
    rw [List.mem_reverse, jobFileNames_eq]
    exact List.mem_map_of_mem _ (by decide)
  have e1 : key ++ "_" ++ "thumbnail" ++ ".jpg" = key ++ "_thumbnail.jpg" := by
    rw [strAppend_assoc, strAppend_assoc]
    rfl
  have e2 : key ++ "_" ++ "card" ++ ".jpg" = key ++ "_card.jpg" := by
    rw [strAppend_assoc, strAppend_assoc]
    rfl
  have e3 : key ++ "_" ++ "detail" ++ ".jpg" = key ++ "_detail.jpg" := by
    rw [strAppend_assoc, strAppend_assoc]
    rfl
  unfold get_responsive_image_urls
  rw [if_neg (show ¬imageName.isEmpty = true by simp [hne])]
  simp only [MENU_IMAGE_SIZES, List.filterMap_cons, List.filterMap_nil, hroot,
    e1, e2, e3]
  rw [if_pos hs1, if_pos hs2, if_pos hs3]

/-- Witness for C2 (amended) at a concrete input: generating for key `m`
into an empty store, then resolving with image name `m.jpg`. -/
theorem C2_amended_witness :
    get_responsive_image_urls (cmsOk [] phonePhoto "m").2 "m.jpg" =
      [("original", storageUrl "m.jpg"),
       ("thumbnail", storageUrl "m_thumbnail.jpg"),
       ("card", storageUrl "m_card.jpg"),
       ("detail", storageUrl "m_detail.jpg")] ∧
    "m_thumbnail.jpg" ∈ (cmsOk [] phonePhoto "m").1.map (fun kv => kv.2.path) ∧
    "m_card.jpg" ∈ (cmsOk [] phonePhoto "m").1.map (fun kv => kv.2.path) ∧
    "m_detail.jpg" ∈ (cmsOk [] phonePhoto "m").1.map (fun kv => kv.2.path) ∧
    "m_hero.webp" ∈ (cmsOk [] phonePhoto "m").1.map (fun kv => kv.2.path) :=
  C2_amended [] phonePhoto "m" "m.jpg" _ _ (by decide) (by decide) (by decide) rfl

/-! ## C4: re-upload does not fully replace the old variant set -/

/-- Claim C4 counterexample: after two successive saves for subject
`item_1` (uploads `a.jpg` then `b.jpg`), the first save's hero WebP
variant `item_1_hero.webp` is still present in the store — cleanup only
probes the old main image's `_thumbnail/_card/_detail.jpg` siblings, so
re-upload accumulates rather than replaces. -/
theorem C4_counterexample : ¬ C4_claim := by
  intro hcl
  have h := (hcl [] phonePhoto phonePhoto "a.jpg" "b.jpg" "item_1").1
    "item_1_hero.webp" (by decide)
  exact h (by decide)

/-- Claim C4 (amended): cleanup after a re-upload deletes only the old main
image and any files named `{old_root}_{thumbnail|card|detail}.jpg`; every
other stored file survives it.  Concretely, after two successive saves
for subject `item_1` the first save's WebP and hero variant files are all
still stored (only the old main image `a.jpg` is gone), so re-uploads
accumulate variant files. -/
theorem C4_amended :
    (∀ (store : Store) (old p : String), p ∈ store → p ≠ old →
        p ≠ splitextRoot old ++ "_thumbnail.jpg" →
        p ≠ splitextRoot old ++ "_card.jpg" →
        p ≠ splitextRoot old ++ "_detail.jpg" →
        p ∈ cleanup_old_images store (some old)) ∧
    ("item_1_hero.webp" ∈
        (twoSaves [] phonePhoto phonePhoto "a.jpg" "b.jpg" "item_1").2.store ∧
      "item_1_thumbnail.webp" ∈
        (twoSaves [] phonePhoto phonePhoto "a.jpg" "b.jpg" "item_1").2.store ∧
      "item_1_card.webp" ∈
        (twoSaves [] phonePhoto phonePhoto "a.jpg" "b.jpg" "item_1").2.store ∧
      "item_1_detail.webp" ∈
        (twoSaves [] phonePhoto phonePhoto "a.jpg" "b.jpg" "item_1").2.store ∧
      "item_1_hero.jpg" ∈
        (twoSaves [] phonePhoto phonePhoto "a.jpg" "b.jpg" "item_1").2.store ∧
      "a.jpg" ∉
        (twoSaves [] phonePhoto phonePhoto "a.jpg" "b.jpg" "item_1").2.store) := by
  constructor
  · intro store old p hmem hne h1 h2 h3
    have keep : ∀ (s : Store) (x : String), p ∈ s → p ≠ x →
        p ∈ (if x ∈ s then storageDelete s x else s) := by
      intro s x hs hne'
      unfold storageDelete
      split_ifs with hx
      · exact (List.mem_erase_of_ne hne').mpr hs
      · exact hs
    have e1 : splitextRoot old ++ "_" ++ "thumbnail" ++ ".jpg" =
        splitextRoot old ++ "_thumbnail.jpg" := by
      rw [strAppend_assoc, strAppend_assoc]
      rfl
    have e2 : splitextRoot old ++ "_" ++ "card" ++ ".jpg" =
        splitextRoot old ++ "_card.jpg" := by
      rw [strAppend_assoc, strAppend_assoc]
      rfl
    have e3 : splitextRoot old ++ "_" ++ "detail" ++ ".jpg" =
        splitextRoot old ++ "_detail.jpg" := by
      rw [strAppend_assoc, strAppend_assoc]
      rfl
    unfold cleanup_old_images
    dsimp only
    by_cases hempty : old.isEmpty = true
    · rw [if_pos hempty]
      exact hmem
    · rw [if_neg hempty]
      simp only [MENU_IMAGE_SIZES, List.foldl_cons, List.foldl_nil]
      rw [e1, e2, e3]
      exact keep _ _ (keep _ _ (keep _ _ (keep _ _ hmem hne) h1) h2) h3
  · decide

/-- Witness for C4 (amended) at a concrete input: a stored file unrelated
to the old image survives `cleanup_old_images`. -/
theorem C4_amended_witness :
    "keep.png" ∈ cleanup_old_images ["keep.png", "old.jpg"] (some "old.jpg") :=
  C4_amended.1 ["keep.png", "old.jpg"] "old.jpg" "keep.png" (by decide)
    (by decide) (by decide) (by decide) (by decide)

end ImagePipeline
